import Mathlib

/-!
Verification development for the RVG governance-dashboard extraction script
(src/get-rvg-issues.py).  The Python source is shallowly embedded: JSON-shaped
dynamic values become the inductive type JVal, Python dict/str operations that
can raise become Except-valued functions, and the HTTP transport is abstracted
as a list of responses (one per request issued).  Machine behaviour that the
script never exercises (Unicode case folding beyond ASCII, float JSON numbers,
Python repr escape sequences) is noted at the definition it concerns.
-/

namespace RVG

/-- A JSON-shaped Python value as handled by the script: None, bool, int,
str, list, dict.  JSON numbers appearing in tracker fields are integral. -/
inductive JVal where
  | null : JVal
  | bool : Bool → JVal
  | num : Int → JVal
  | str : String → JVal
  | arr : List JVal → JVal
  | obj : List (String × JVal) → JVal

/-- Python truthiness: None, False, 0, empty string, empty list, empty dict
are falsy; everything else is truthy. -/
def truthy : JVal → Bool
  | .null => false
  | .bool b => b
  | .num n => n != 0
  | .str s => s != ""
  | .arr l => !l.isEmpty
  | .obj kvs => !kvs.isEmpty

/-- Key lookup in an embedded dict.  Dicts coming from JSON have distinct
keys, so first-match lookup agrees with Python dict access. -/
def lookupJ (k : String) : List (String × JVal) → Option JVal
  | [] => none
  | (k2, v) :: rest => if k2 == k then some v else lookupJ k rest

/-- Python dict.get with default None. -/
def jGet (kvs : List (String × JVal)) (k : String) : JVal :=
  (lookupJ k kvs).getD .null

/-- Python dict.get with an explicit default. -/
def jGetD (kvs : List (String × JVal)) (k : String) (d : JVal) : JVal :=
  (lookupJ k kvs).getD d

/-- Python membership test for a dict key. -/
def hasKey (k : String) (kvs : List (String × JVal)) : Bool :=
  (lookupJ k kvs).isSome

mutual
/-- Python equality on the embedded values.  True equals 1 and False equals
0; containers compare elementwise.  Embedded dicts are compared in key order
(distinct-key JSON objects make this agree with Python for the scalar email
values this script ever compares). -/
def pyEq : JVal → JVal → Bool
  | .null, .null => true
  | .bool a, .bool b => a == b
  | .bool a, .num n => (if a then (1 : Int) else 0) == n
  | .num n, .bool b => n == (if b then (1 : Int) else 0)
  | .num a, .num b => a == b
  | .str a, .str b => a == b
  | .arr a, .arr b => pyEqArr a b
  | .obj a, .obj b => pyEqObj a b
  | _, _ => false

def pyEqArr : List JVal → List JVal → Bool
  | [], [] => true
  | a :: as2, b :: bs => pyEq a b && pyEqArr as2 bs
  | _, _ => false

def pyEqObj : List (String × JVal) → List (String × JVal) → Bool
  | [], [] => true
  | (k, v) :: as2, (k2, v2) :: bs => k == k2 && pyEq v v2 && pyEqObj as2 bs
  | _, _ => false
end

/-- Python list membership (the in operator): any element equal to x. -/
def pyMem (x : JVal) (l : List JVal) : Bool :=
  l.any (fun e => pyEq e x)

/-- Whether the char list starting here begins with the needle. -/
def startsList : List Char → List Char → Bool
  | [], _ => true
  | _ :: _, [] => false
  | a :: as2, b :: bs => a == b && startsList as2 bs

/-- Whether the needle occurs somewhere in the haystack. -/
def occursIn (needle : List Char) : List Char → Bool
  | [] => needle.isEmpty
  | c :: rest => startsList needle (c :: rest) || occursIn needle rest

/-- Python substring test: needle in hay.  The empty needle is in every
string. -/
def pyIn (needle hay : String) : Bool :=
  occursIn needle.data hay.data

/-- ASCII lower-casing of one character, as str.lower acts on the ASCII
labels this pipeline handles. -/
def lowerChar (c : Char) : Char :=
  if 65 ≤ c.toNat ∧ c.toNat ≤ 90 then Char.ofNat (c.toNat + 32) else c

/-- ASCII str.lower on a string. -/
def pyLowerStr (s : String) : String :=
  String.mk (s.data.map lowerChar)

/-- The Python or operator: the left operand if truthy, else the right. -/
def pythonOr (a b : JVal) : JVal :=
  if truthy a then a else b

/-- Python str.lower on an embedded value: defined for strings, raising
AttributeError otherwise.  ASCII case folding (the relation names and labels
in this pipeline are ASCII). -/
def pyLower : JVal → Except String String
  | .str s => .ok (pyLowerStr s)
  | _ => .error "AttributeError: lower"

mutual
/-- Python repr of an embedded value (string escape sequences inside nested
reprs are not reproduced; the script only stringifies scalars). -/
def pyRepr : JVal → String
  | .null => "None"
  | .bool true => "True"
  | .bool false => "False"
  | .num n => toString n
  | .str s => "\x27" ++ s ++ "\x27"
  | .arr l => "[" ++ pyReprArr l ++ "]"
  | .obj kvs => "\x7b" ++ pyReprObj kvs ++ "\x7d"

def pyReprArr : List JVal → String
  | [] => ""
  | [x] => pyRepr x
  | x :: rest => pyRepr x ++ ", " ++ pyReprArr rest

def pyReprObj : List (String × JVal) → String
  | [] => ""
  | [(k, v)] => "\x27" ++ k ++ "\x27: " ++ pyRepr v
  | (k, v) :: rest => "\x27" ++ k ++ "\x27: " ++ pyRepr v ++ ", " ++ pyReprObj rest
end

/-- Python str() of an embedded value. -/
def pyStr : JVal → String
  | .str s => s
  | v => pyRepr v

/-- Python iteration over a value: lists yield elements, strings yield
single-character strings, dicts yield their keys; other values raise
TypeError. -/
def pyIter : JVal → Except String (List JVal)
  | .arr l => .ok l
  | .str s => .ok (s.data.map (fun c => .str (String.mk [c])))
  | .obj kvs => .ok (kvs.map (fun kv => .str kv.1))
  | _ => .error "TypeError: not iterable"

/-- Whether an Except value is a success. -/
def exceptOk : Except String α → Bool
  | .ok _ => true
  | .error _ => false

/-! Configuration constants of the script (src/get-rvg-issues.py lines
45-81).  The server URL is the documented default of the JIRA_SERVER_URL
environment variable. -/

def JIRA_SERVER_URL : String := "https://riscv.atlassian.net"

def CF_CHAIR : String := "customfield_10092"
def CF_CHAIR_EMAIL : String := "customfield_10093"
def CF_VICE_CHAIR : String := "customfield_10099"
def CF_VICE_CHAIR_EMAIL : String := "customfield_10100"
def CF_CHAIR_AFFILIATION : String := "customfield_10096"
def CF_VICE_CHAIR_AFFILIATION : String := "customfield_10103"
def CF_CHARTER : String := "customfield_10086"
def CF_CONFLUENCE_SPACE : String := "customfield_10122"
def CF_MAILING_LIST : String := "customfield_10071"
def CF_ACTIVITY_LEVEL : String := "customfield_10145"
def CF_MEETING_NOTES : String := "customfield_10088"
def CF_GROUP_CREATION_DATE : String := "customfield_10090"
def CF_NEXT_ELECTION_MONTH : String := "customfield_10312"
def CF_NEXT_ELECTION_YEAR : String := "customfield_10313"
def CF_LAST_ELECTION_MONTH : String := "customfield_10311"
def CF_LAST_ELECTION_YEAR : String := "customfield_10310"
def CF_IS_ACTING_CHAIR : String := "customfield_10094"
def CF_IS_ACTING_VICE_CHAIR : String := "customfield_10102"
def CF_RECHARTER_APPROVAL_DATE : String := "customfield_10643"

def LINK_TYPES_OF_INTEREST : List String :=
  ["is direct-lined by", "is governed by"]

/-! Field normalizers (source lines 144-191, 303-322, 384-396). -/

/-- The dict returned by extract_user_info: displayName, emailAddress,
accountId (each None when unavailable). -/
structure UserInfo where
  displayName : JVal
  emailAddress : JVal
  accountId : JVal

/-- extract_user_info (source lines 144-163): falsy values give the empty
record, dicts give their named sub-fields, raw strings become the display
name; anything else gives the empty record. -/
def extract_user_info (user_field : JVal) : UserInfo :=
  if truthy user_field = false then ⟨.null, .null, .null⟩
  else match user_field with
    | .obj kvs => ⟨jGet kvs "displayName", jGet kvs "emailAddress", jGet kvs "accountId"⟩
    | .str s => ⟨.str s, .null, .null⟩
    | _ => ⟨.null, .null, .null⟩

/-- Delimiter characters of the regex class [,;\s] used by extract_emails
(ASCII whitespace as matched by the re module on these fields). -/
def isDelim (c : Char) : Bool :=
  c == ',' || c == ';' || c == ' ' || c == '\t' || c == '\n' || c == '\r' || c == '\x0b' || c == '\x0c'

/-- Splitting at every delimiter character.  The source splits on delimiter
runs (regex [,;\s]+); splitting at single delimiters differs only by extra
empty tokens, which the caller filters out, so the composed result is the
same. -/
def splitAny : List Char → List Char → List String
  | [], cur => [String.mk cur.reverse]
  | c :: rest, cur =>
      if isDelim c then String.mk cur.reverse :: splitAny rest []
      else splitAny rest (c :: cur)

/-- extract_emails (source lines 166-191).  A string splits at delimiters,
keeping tokens containing an at sign (each token contains no whitespace, so
the strip in the source is the identity on it); a list keeps each dict
element with a truthy emailAddress and each string element containing an at
sign; anything else yields the empty list. -/
def extract_emails (email_field : JVal) : List JVal :=
  if truthy email_field = false then []
  else match email_field with
    | .str s =>
        ((splitAny s.data []).filter (fun p => p != "" && pyIn "@" p)).map JVal.str
    | .arr items =>
        items.foldr (fun item acc =>
          match item with
          | .obj kvs => if truthy (jGet kvs "emailAddress") then jGet kvs "emailAddress" :: acc else acc
          | .str s => if pyIn "@" s then JVal.str s :: acc else acc
          | _ => acc) []
    | _ => []

/-- get_issue_url (source lines 194-196): the browse URL built from the
server base and the key by string formatting. -/
def get_issue_url (issue_key : JVal) : String :=
  JIRA_SERVER_URL ++ "/browse/" ++ pyStr issue_key

/-- extract_url_field (source lines 303-311): falsy values give None,
strings give themselves, dicts give their href sub-field or, when that is
falsy, their url sub-field; anything else gives None. -/
def extract_url_field (field_value : JVal) : JVal :=
  if truthy field_value = false then .null
  else match field_value with
    | .str s => .str s
    | .obj kvs => pythonOr (jGet kvs "href") (jGet kvs "url")
    | _ => .null

/-- extract_dropdown_value (source lines 314-322): falsy values give None,
strings give themselves, dicts give their value sub-field or, when that is
falsy, their name sub-field; anything else gives None. -/
def extract_dropdown_value (field_value : JVal) : JVal :=
  if truthy field_value = false then .null
  else match field_value with
    | .str s => .str s
    | .obj kvs => pythonOr (jGet kvs "value") (jGet kvs "name")
    | _ => .null

/-- parse_checkbox (source lines 384-396).  None gives False; booleans pass
through; a non-empty list inspects its first element (a dict compares its
value sub-field, lower-cased, to yes, raising when that sub-field is not a
string; otherwise the string form of the element is compared to yes); a
dict compares its value sub-field likewise; everything else compares its
string form to yes, true or 1. -/
def parse_checkbox : JVal → Except String Bool
  | .null => .ok false
  | .bool b => .ok b
  | .arr (first :: _) =>
      match first with
      | .obj kvs =>
          match pyLower (jGetD kvs "value" (.str "")) with
          | .ok s => .ok (s == "yes")
          | .error e => .error e
      | _ => .ok (pyLowerStr (pyStr first) == "yes")
  | .obj kvs =>
      match pyLower (jGetD kvs "value" (.str "")) with
      | .ok s => .ok (s == "yes")
      | .error e => .error e
  | v => .ok (pyLowerStr (pyStr v) == "yes" || pyLowerStr (pyStr v) == "true" || pyLowerStr (pyStr v) == "1")

/-! The issue record builder (source lines 325-429). -/

/-- The structured dict returned by process_issue.  Field values keep the
dynamic shapes the source can put in them. -/
structure ProcRecord where
  key : JVal
  summary : JVal
  url : String
  chair : JVal
  chair_email : JVal
  chair_affiliation : JVal
  vice_chair : JVal
  vice_chair_email : JVal
  vice_chair_affiliation : JVal
  emails : List JVal
  status : JVal
  charter : JVal
  confluence_space : JVal
  mailing_list : JVal
  activity_level : JVal
  meeting_notes : JVal
  creation_date : JVal
  next_election_month : JVal
  next_election_year : JVal
  last_election_month : JVal
  last_election_year : JVal
  is_acting_chair : Bool
  is_acting_vice_chair : Bool
  recharter_approval_date : JVal

/-- The chair email selection of source lines 338-339: the dedicated email
field when its raw value is a plain string, else the email embedded in the
person-reference field. -/
def chairEmailOf (fkvs : List (String × JVal)) : JVal :=
  match jGet fkvs CF_CHAIR_EMAIL with
  | .str s => .str s
  | _ => (extract_user_info (jGet fkvs CF_CHAIR)).emailAddress

/-- The vice-chair email selection of source lines 346-347. -/
def viceChairEmailOf (fkvs : List (String × JVal)) : JVal :=
  match jGet fkvs CF_VICE_CHAIR_EMAIL with
  | .str s => .str s
  | _ => (extract_user_info (jGet fkvs CF_VICE_CHAIR)).emailAddress

/-- The emails accumulation of source lines 350-354: append the chair email
if truthy, then the vice-chair email if truthy and not already present. -/
def emailsOf (chair_email vice_chair_email : JVal) : List JVal :=
  let emails0 : List JVal := if truthy chair_email then [chair_email] else []
  if truthy vice_chair_email && !pyMem vice_chair_email emails0 then
    emails0 ++ [vice_chair_email]
  else emails0

/-- The affiliation normalization inlined at source lines 361-366: dicts
give value-else-name, every other shape passes through. -/
def affiliationOf (v : JVal) : JVal :=
  match v with
  | .obj kvs => pythonOr (jGet kvs "value") (jGet kvs "name")
  | _ => v

/-- The status extraction of source lines 357-358. -/
def statusOf (v : JVal) : JVal :=
  match v with
  | .obj kvs => jGet kvs "name"
  | _ => .null

/-- process_issue (source lines 325-429).  Attribute access on non-dict
values raises, modelled as an error result; so do the two checkbox parses.
There is no key check: a missing key defaults to the empty string. -/
def process_issue (issue_data : JVal) : Except String ProcRecord :=
  match issue_data with
  | .obj okvs =>
    let fields := jGetD okvs "fields" (.obj [])
    let issue_key := jGetD okvs "key" (.str "")
    match fields with
    | .obj fkvs =>
      let chair_info := extract_user_info (jGet fkvs CF_CHAIR)
      let chair_email := chairEmailOf fkvs
      let vice_chair_info := extract_user_info (jGet fkvs CF_VICE_CHAIR)
      let vice_chair_email := viceChairEmailOf fkvs
      match parse_checkbox (jGet fkvs CF_IS_ACTING_CHAIR),
            parse_checkbox (jGet fkvs CF_IS_ACTING_VICE_CHAIR) with
      | .ok is_acting_chair, .ok is_acting_vice_chair =>
        .ok {
          key := issue_key
          summary := jGetD fkvs "summary" (.str "")
          url := get_issue_url issue_key
          chair := chair_info.displayName
          chair_email := chair_email
          chair_affiliation := affiliationOf (jGet fkvs CF_CHAIR_AFFILIATION)
          vice_chair := vice_chair_info.displayName
          vice_chair_email := vice_chair_email
          vice_chair_affiliation := affiliationOf (jGet fkvs CF_VICE_CHAIR_AFFILIATION)
          emails := emailsOf chair_email vice_chair_email
          status := statusOf (jGet fkvs "status")
          charter := extract_url_field (jGet fkvs CF_CHARTER)
          confluence_space := extract_url_field (jGet fkvs CF_CONFLUENCE_SPACE)
          mailing_list := extract_url_field (jGet fkvs CF_MAILING_LIST)
          activity_level := extract_dropdown_value (jGet fkvs CF_ACTIVITY_LEVEL)
          meeting_notes := extract_url_field (jGet fkvs CF_MEETING_NOTES)
          creation_date := jGet fkvs CF_GROUP_CREATION_DATE
          next_election_month := extract_dropdown_value (jGet fkvs CF_NEXT_ELECTION_MONTH)
          next_election_year := extract_dropdown_value (jGet fkvs CF_NEXT_ELECTION_YEAR)
          last_election_month := extract_dropdown_value (jGet fkvs CF_LAST_ELECTION_MONTH)
          last_election_year := extract_dropdown_value (jGet fkvs CF_LAST_ELECTION_YEAR)
          is_acting_chair := is_acting_chair
          is_acting_vice_chair := is_acting_vice_chair
          recharter_approval_date := jGet fkvs CF_RECHARTER_APPROVAL_DATE
        }
      | .error e, _ => .error e
      | _, .error e => .error e
    | _ => .error "AttributeError: get"
  | _ => .error "AttributeError: get"

/-- The dict-shaped fields member a raw issue object carries: the empty
dict when absent, its entry list when it is a dict, undefined (None)
otherwise. -/
def fieldsObjOf (okvs : List (String × JVal)) : Option (List (String × JVal)) :=
  match lookupJ "fields" okvs with
  | none => some []
  | some (.obj fkvs) => some fkvs
  | some _ => none

/-! The link resolver (source lines 432-473). -/

/-- One entry of the list returned by get_linked_issues: the related issue
key, the link type name, and the side of the link the related issue sits
on. -/
structure LinkRef where
  key : JVal
  link_type : JVal
  direction : String

/-- The inner relation-name loop of source lines 455-464: scan the
configured names in order; the first name that is a substring of the
lowered inward label while the link has an inwardIssue key selects the
inward side, else the first that is a substring of the lowered outward
label while the link has an outwardIssue key selects the outward side. -/
def linkScan (inward_name outward_name : String) (lkvs : List (String × JVal)) :
    List String → Option (JVal × String)
  | [] => none
  | lt0 :: rest =>
      let lt_lower := pyLowerStr lt0
      if pyIn lt_lower inward_name && hasKey "inwardIssue" lkvs then
        some (jGet lkvs "inwardIssue", "inward")
      else if pyIn lt_lower outward_name && hasKey "outwardIssue" lkvs then
        some (jGet lkvs "outwardIssue", "outward")
      else linkScan inward_name outward_name lkvs rest

/-- One iteration of the link loop (source lines 444-471): read the link
type and its lowered labels (attribute errors on non-dict or non-string
shapes are error results), run the scan, and append an entry only when the
selected related issue is truthy. -/
def processLink (link_types : List String) (link : JVal) : Except String (Option LinkRef) :=
  match link with
  | .obj lkvs =>
    match jGetD lkvs "type" (.obj []) with
    | .obj tkvs =>
      match jGetD tkvs "inward" (.str ""), jGetD tkvs "outward" (.str "") with
      | .str iw, .str ow =>
          let inward_name := pyLowerStr iw
          let outward_name := pyLowerStr ow
          match linkScan inward_name outward_name lkvs link_types with
          | some (linked_issue, dir) =>
              if truthy linked_issue then
                match linked_issue with
                | .obj ikvs =>
                    .ok (some { key := jGet ikvs "key", link_type := jGet tkvs "name", direction := dir })
                | _ => .error "AttributeError: get"
              else .ok none
          | none => .ok none
      | _, _ => .error "AttributeError: lower"
    | _ => .error "AttributeError: get"
  | _ => .error "AttributeError: get"

/-- The link loop of source lines 444-471 over the whole issuelinks list. -/
def linksLoop (link_types : List String) : List JVal → Except String (List LinkRef)
  | [] => .ok []
  | l :: rest =>
    match processLink link_types l with
    | .ok o =>
      match linksLoop link_types rest with
      | .ok tail => .ok (match o with | some r => r :: tail | none => tail)
      | .error e => .error e
    | .error e => .error e

/-- get_linked_issues (source lines 432-473). -/
def get_linked_issues (issue_data : JVal) (link_types : List String) :
    Except String (List LinkRef) :=
  match issue_data with
  | .obj okvs =>
    match jGetD okvs "fields" (.obj []) with
    | .obj fkvs =>
      match pyIter (jGetD fkvs "issuelinks" (.arr [])) with
      | .ok links => linksLoop link_types links
      | .error e => .error e
    | _ => .error "AttributeError: get"
  | _ => .error "AttributeError: get"

/-! A resolver written from the words of claim C1 (refinement
specification), to compare against get_linked_issues. -/

/-- Modelled from the claim text: the entry carries a related issue on the
given side when that side is present and holds an actual (truthy) issue. -/
def claimCarries (lkvs : List (String × JVal)) (side : String) : Bool :=
  hasKey side lkvs && truthy (jGet lkvs side)

/-- Modelled from the claim text: the key member of a related issue. -/
def claimKeyOf : JVal → JVal
  | .obj ikvs => jGet ikvs "key"
  | _ => .null

/-- Modelled from the claim text: scan the configured relation names in
configuration order; at the first name that is a case-insensitive substring
of the inward label while the entry carries an inward-side related issue,
select inward and stop; otherwise, at the first that is a substring of the
outward label while the entry carries an outward-side related issue, select
outward and stop. -/
def claimScan (inw outw : String) (lkvs : List (String × JVal)) :
    List String → Option (JVal × String)
  | [] => none
  | n :: rest =>
      if pyIn (pyLowerStr n) inw && claimCarries lkvs "inwardIssue" then
        some (jGet lkvs "inwardIssue", "inward")
      else if pyIn (pyLowerStr n) outw && claimCarries lkvs "outwardIssue" then
        some (jGet lkvs "outwardIssue", "outward")
      else claimScan inw outw lkvs rest

/-- Modelled from the claim text: the at-most-one edge a link entry
contributes. -/
def claimEdgeOfLink (names : List String) (link : JVal) : Option LinkRef :=
  match link with
  | .obj lkvs =>
      let tkvs := match jGetD lkvs "type" (.obj []) with | .obj t => t | _ => []
      let inw := match jGetD tkvs "inward" (.str "") with | .str s => pyLowerStr s | _ => ""
      let outw := match jGetD tkvs "outward" (.str "") with | .str s => pyLowerStr s | _ => ""
      (claimScan inw outw lkvs names).map (fun p =>
        { key := claimKeyOf p.1, link_type := jGet tkvs "name", direction := p.2 })
  | _ => none

/-- Modelled from the claim text: one pass over the link list in order,
each entry contributing at most one edge. -/
def claimResolveLinks (issue_data : JVal) (names : List String) : List LinkRef :=
  let links := match issue_data with
    | .obj okvs =>
        match jGetD okvs "fields" (.obj []) with
        | .obj fkvs => match jGetD fkvs "issuelinks" (.arr []) with
                       | .arr ls => ls
                       | _ => []
        | _ => []
    | _ => []
  links.filterMap (claimEdgeOfLink names)

/-! Transport model (source lines 199-300).  The HTTP layer is abstracted
as the finite sequence of responses the server supplies to the successive
requests of one call; each response carries a status code and a parsed JSON
body.  Session headers, authentication, payload construction and the
sleeping in the rate-limit handler have no bearing on the data flow and are
not modelled; prints are dropped except the warning lines, which are
collected. -/

structure HttpResp where
  status : Nat
  body : JVal

/-- The bounded attempt loop of source lines 231-241 and 286-291 (for
attempt in range(6): request; on 429 wait and retry, else break).  Returns
the response the loop leaves in scope together with the number of requests
issued and the responses left for later requests; none when the supplied
response sequence is exhausted (unreachable for the scenarios the claims
quantify over). -/
def httpAttempts : Nat → List HttpResp → Option (HttpResp × Nat × List HttpResp)
  | 0, _ => none
  | _ + 1, [] => none
  | n + 1, r :: rest =>
      if r.status == 429 && n != 0 then
        (httpAttempts n rest).map (fun p => (p.1, p.2.1 + 1, p.2.2))
      else some (r, 1, rest)

/-- The pagination loop of search_issues (source lines 199-267).  A non-200
response prints an error and returns the accumulated issues; a 200 response
appends the issues member of its body and continues while a truthy
nextPageToken is present.  The returned number counts the requests issued.
Every iteration consumes at least one response, so the loop is bounded by
the number of supplied responses; the recursion uses that bound as
structural fuel, and the fuel-exhausted branch coincides with the
unreachable exhausted-transport branch. -/
def searchLoop : Nat → List HttpResp → List JVal → Except String (List JVal × Nat)
  | 0, _, acc => .ok (acc, 0)
  | fuel + 1, rs, acc =>
      match httpAttempts 6 rs with
      | none => .ok (acc, 0)
      | some (resp, n, _rest) =>
          if resp.status != 200 then .ok (acc, n)
          else
            match resp.body with
            | .obj dkvs =>
                match pyIter (jGetD dkvs "issues" (.arr [])) with
                | .ok items =>
                    let acc2 := acc ++ items
                    if truthy (jGet dkvs "nextPageToken") = false then .ok (acc2, n)
                    else
                      match searchLoop fuel _rest acc2 with
                      | .ok (res, m) => .ok (res, m + n)
                      | .error e => .error e
                | .error e => .error e
            | _ => .error "AttributeError: get"

/-- search_issues (source lines 199-267), over the response sequence the
server supplies.  The JQL string and field list only shape the request
payload and do not influence the control flow modelled here. -/
def search_issues (responses : List HttpResp) : Except String (List JVal × Nat) :=
  searchLoop responses.length responses []

/-- The issue URL of the single-issue endpoint (source line 280). -/
def urlForIssue (issue_key : JVal) : String :=
  JIRA_SERVER_URL ++ "/rest/api/3/issue/" ++ pyStr issue_key

/-- get_issue_details (source lines 270-300): a 200 response yields its
body, a 404 prints a not-found warning and yields nothing, any other
terminal status prints an error warning and yields nothing.  Returns the
result, the number of requests issued, and the warning lines printed. -/
def get_issue_details (server : String → List HttpResp) (issue_key : JVal) :
    Option JVal × Nat × List String :=
  match httpAttempts 6 (server (urlForIssue issue_key)) with
  | none => (none, 0, [])
  | some (resp, n, _) =>
      if resp.status == 200 then (some resp.body, n, [])
      else if resp.status == 404 then
        (none, n, ["Warning: Issue " ++ pyStr issue_key ++ " not found"])
      else
        (none, n, ["Warning: Error fetching " ++ pyStr issue_key ++ ": HTTP " ++ toString resp.status])

/-! The pipeline orchestrator (source lines 476-535). -/

/-- A processed linked issue with the link metadata attached (source lines
523-526). -/
structure LinkedRec where
  record : ProcRecord
  link_type : JVal
  link_direction : String

/-- One result entry: the primary record and its processed linked issues
(source lines 529-532). -/
structure IssueWithLinks where
  issue : ProcRecord
  linked_issues : List LinkedRec

/-- The linked-issue loop of source lines 515-526: fetch each reference,
skip it when nothing comes back, process and attach otherwise. -/
def linkedLoop (server : String → List HttpResp) :
    List LinkRef → Except String (List LinkedRec × List String)
  | [] => .ok ([], [])
  | ref :: rest =>
      let fetched := get_issue_details server ref.key
      match fetched.1 with
      | some linked_data =>
          match process_issue linked_data with
          | .ok li =>
              match linkedLoop server rest with
              | .ok (tail, w2) =>
                  .ok ({ record := li, link_type := ref.link_type, link_direction := ref.direction } :: tail,
                       fetched.2.2 ++ w2)
              | .error e => .error e
          | .error e => .error e
      | none =>
          match linkedLoop server rest with
          | .ok (tail, w2) => .ok (tail, fetched.2.2 ++ w2)
          | .error e => .error e

/-- Processing of one primary issue (source lines 504-532): build its
record, resolve its links, fetch and process the linked issues. -/
def processEntry (server : String → List HttpResp) (issue_data : JVal) :
    Except String (IssueWithLinks × List String) :=
  match process_issue issue_data with
  | .ok main_info =>
      match get_linked_issues issue_data LINK_TYPES_OF_INTEREST with
      | .ok linked_refs =>
          match linkedLoop server linked_refs with
          | .ok (linked, warns) => .ok ({ issue := main_info, linked_issues := linked }, warns)
          | .error e => .error e
      | .error e => .error e
  | .error e => .error e

/-- The processing loop over all fetched primary issues. -/
def processLoop (server : String → List HttpResp) :
    List JVal → Except String (List IssueWithLinks × List String)
  | [] => .ok ([], [])
  | b :: bs =>
      match processEntry server b with
      | .ok (e, w1) =>
          match processLoop server bs with
          | .ok (tail, w2) => .ok (e :: tail, w1 ++ w2)
          | .error e2 => .error e2
      | .error e2 => .error e2

/-- The explicit-key fetch loop of source lines 490-494: fetch every key in
order, keeping the issues that come back and the warnings printed. -/
def fetchKeysLoop (server : String → List HttpResp) :
    List String → List JVal × List String
  | [] => ([], [])
  | k :: ks =>
      let fetched := get_issue_details server (.str k)
      let tail := fetchKeysLoop server ks
      match fetched.1 with
      | some b => (b :: tail.1, fetched.2.2 ++ tail.2)
      | none => (tail.1, fetched.2.2 ++ tail.2)

def DEFAULT_JQL : String :=
  "project = RVG AND issuetype not in subTaskIssueTypes() AND status in (Active, Proposing, \"Structuring and Chartering\") ORDER BY status ASC, key ASC"

/-- fetch_and_process_issues (source lines 476-535).  A truthy (non-empty)
explicit key list selects the per-key branch; otherwise a JQL search over
the supplied response sequence produces the primary issues.  Returns the
results and the warning lines printed, in print order: all primary-phase
warnings precede the processing-phase ones because the source fetches every
primary issue before processing any. -/
def fetch_and_process_issues (server : String → List HttpResp)
    (searchResponses : List HttpResp) (jql : Option String)
    (issue_keys : Option (List String)) :
    Except String (List IssueWithLinks × List String) :=
  match issue_keys with
  | some (k :: ks) =>
      let fetched := fetchKeysLoop server (k :: ks)
      match processLoop server fetched.1 with
      | .ok (entries, warns2) => .ok (entries, fetched.2 ++ warns2)
      | .error e => .error e
  | _ =>
      let _search_jql := match jql with
        | some s => if s == "" then DEFAULT_JQL else s
        | none => DEFAULT_JQL
      match search_issues searchResponses with
      | .ok (issues, _) =>
          match processLoop server issues with
          | .ok (entries, warns2) => .ok (entries, warns2)
          | .error e => .error e
      | .error e => .error e

/-! The grouped CSV exporter (source lines 652-776).  The exporter consumes
the assembled results, whose relevant row values are the canonical strings
of the spec data model (absent values rendered through the or-empty idiom of
the source); the record type below carries exactly the members the exporter
reads.  File writing and the fixed header row add nothing to the ordering
behaviour and are not modelled. -/

/-- The members of a primary issue record read by save_grouped_csv. -/
structure GIssue where
  key : String
  summary : String
  status : Option String
  creation_date : Option String
  recharter_approval_date : Option String
  charter : Option String
  confluence_space : Option String
  mailing_list : Option String
  activity_level : Option String
  meeting_notes : Option String
  next_election_month : Option String
  next_election_year : Option String
  last_election_month : Option String
  last_election_year : Option String
  chair : Option String
  chair_email : Option String
  chair_affiliation : Option String
  is_acting_chair : Bool
  vice_chair : Option String
  vice_chair_email : Option String
  vice_chair_affiliation : Option String
  is_acting_vice_chair : Bool

/-- The members of a linked issue record read by save_grouped_csv. -/
structure GLinked where
  summary : String
  chair : Option String
  chair_email : Option String
  chair_affiliation : Option String
  vice_chair : Option String
  vice_chair_email : Option String
  vice_chair_affiliation : Option String
  mailing_list : Option String

/-- One result given to the exporter. -/
structure GEntry where
  issue : GIssue
  linked_issues : List GLinked

/-- The or-empty idiom of the row construction: an absent value renders as
the empty string. -/
def orEmpty : Option String → String
  | some s => s
  | none => ""

/-- A row of the grouped CSV, one member per output column. -/
structure RowG where
  issueKey : String
  summary : String
  statusCol : String
  creationDate : String
  recharterApprovalDate : String
  charterCol : String
  confluenceSpace : String
  mailingList : String
  activityLevel : String
  meetingNotes : String
  nextElectionMonth : String
  nextElectionYear : String
  lastElectionMonth : String
  lastElectionYear : String
  chairCol : String
  chairEmail : String
  chairAffiliation : String
  isActingChair : String
  viceChair : String
  viceChairEmail : String
  viceChairAffiliation : String
  isActingViceChair : String
  linkedIssueSummary : String
  linkedIssueChair : String
  linkedIssueChairEmail : String
  linkedIssueChairAffiliation : String
  linkedIssueViceChair : String
  linkedIssueViceChairEmail : String
  linkedIssueViceChairAffiliation : String
  linkedIssueMailingList : String

/-- A row for one (primary, linked) pair (source lines 663-696). -/
def rowOfPair (issue : GIssue) (li : GLinked) : RowG where
  issueKey := issue.key
  summary := issue.summary
  statusCol := orEmpty issue.status
  creationDate := orEmpty issue.creation_date
  recharterApprovalDate := orEmpty issue.recharter_approval_date
  charterCol := orEmpty issue.charter
  confluenceSpace := orEmpty issue.confluence_space
  mailingList := orEmpty issue.mailing_list
  activityLevel := orEmpty issue.activity_level
  meetingNotes := orEmpty issue.meeting_notes
  nextElectionMonth := orEmpty issue.next_election_month
  nextElectionYear := orEmpty issue.next_election_year
  lastElectionMonth := orEmpty issue.last_election_month
  lastElectionYear := orEmpty issue.last_election_year
  chairCol := orEmpty issue.chair
  chairEmail := orEmpty issue.chair_email
  chairAffiliation := orEmpty issue.chair_affiliation
  isActingChair := if issue.is_acting_chair then "Yes" else "No"
  viceChair := orEmpty issue.vice_chair
  viceChairEmail := orEmpty issue.vice_chair_email
  viceChairAffiliation := orEmpty issue.vice_chair_affiliation
  isActingViceChair := if issue.is_acting_vice_chair then "Yes" else "No"
  linkedIssueSummary := li.summary
  linkedIssueChair := orEmpty li.chair
  linkedIssueChairEmail := orEmpty li.chair_email
  linkedIssueChairAffiliation := orEmpty li.chair_affiliation
  linkedIssueViceChair := orEmpty li.vice_chair
  linkedIssueViceChairEmail := orEmpty li.vice_chair_email
  linkedIssueViceChairAffiliation := orEmpty li.vice_chair_affiliation
  linkedIssueMailingList := orEmpty li.mailing_list

/-- A row for a primary issue without linked issues (source lines
697-731): the linked columns are empty. -/
def rowOfUnlinked (issue : GIssue) : RowG where
  issueKey := issue.key
  summary := issue.summary
  statusCol := orEmpty issue.status
  creationDate := orEmpty issue.creation_date
  recharterApprovalDate := orEmpty issue.recharter_approval_date
  charterCol := orEmpty issue.charter
  confluenceSpace := orEmpty issue.confluence_space
  mailingList := orEmpty issue.mailing_list
  activityLevel := orEmpty issue.activity_level
  meetingNotes := orEmpty issue.meeting_notes
  nextElectionMonth := orEmpty issue.next_election_month
  nextElectionYear := orEmpty issue.next_election_year
  lastElectionMonth := orEmpty issue.last_election_month
  lastElectionYear := orEmpty issue.last_election_year
  chairCol := orEmpty issue.chair
  chairEmail := orEmpty issue.chair_email
  chairAffiliation := orEmpty issue.chair_affiliation
  isActingChair := if issue.is_acting_chair then "Yes" else "No"
  viceChair := orEmpty issue.vice_chair
  viceChairEmail := orEmpty issue.vice_chair_email
  viceChairAffiliation := orEmpty issue.vice_chair_affiliation
  isActingViceChair := if issue.is_acting_vice_chair then "Yes" else "No"
  linkedIssueSummary := ""
  linkedIssueChair := ""
  linkedIssueChairEmail := ""
  linkedIssueChairAffiliation := ""
  linkedIssueViceChair := ""
  linkedIssueViceChairEmail := ""
  linkedIssueViceChairAffiliation := ""
  linkedIssueMailingList := ""

/-- The rows of one result: one per linked issue, or a single unlinked row
(source lines 657-731, driven by the truthiness of the linked list). -/
def rowsOfEntry (e : GEntry) : List RowG :=
  match e.linked_issues with
  | [] => [rowOfUnlinked e.issue]
  | ls => ls.map (rowOfPair e.issue)

/-- All rows before sorting, in construction order. -/
def buildGroupedRows (results : List GEntry) : List RowG :=
  (results.map rowsOfEntry).flatten

/-- The Python or idiom of the sort key on strings: the value, or the
sentinel when it is empty. -/
def strOr (s d : String) : String :=
  if s == "" then d else s

/-- The sort key of source line 734: the linked-issue summary with empty
replaced by the sentinel zzz, then the primary issue key. -/
def rowSortKey (r : RowG) : String × String :=
  (strOr r.linkedIssueSummary "zzz", r.issueKey)

/-- Strict lexicographic comparison of char lists by code point, the order
Python string comparison uses. -/
def listLtB : List Char → List Char → Bool
  | [], [] => false
  | [], _ :: _ => true
  | _ :: _, [] => false
  | a :: as2, b :: bs => if a < b then true else if b < a then false else listLtB as2 bs

/-- Strict Python string comparison. -/
def strLtB (a b : String) : Bool :=
  listLtB a.data b.data

theorem listLtB_irrefl : ∀ l : List Char, listLtB l l = false := by
  intro l
  induction l with
  | nil => rfl
  | cons a as2 ih => simp [listLtB, lt_irrefl, ih]

theorem listLtB_asymm : ∀ a b : List Char, listLtB a b = true → listLtB b a = false := by
  intro a
  induction a with
  | nil =>
      intro b h
      cases b with
      | nil => exact absurd h (by simp [listLtB])
      | cons bh bt => rfl
  | cons ah at2 ih =>
      intro b h
      cases b with
      | nil => exact absurd h (by simp [listLtB])
      | cons bh bt =>
          simp only [listLtB] at h ⊢
          by_cases h1 : ah < bh
          · simp [h1, asymm h1]
          · by_cases h2 : bh < ah
            · simp [h1, h2] at h
            · simp only [h1, h2, if_false] at h ⊢
              simp [ih bt h]

theorem listLtB_conn : ∀ a b : List Char, listLtB a b = false → listLtB b a = false → a = b := by
  intro a
  induction a with
  | nil =>
      intro b h1 h2
      cases b with
      | nil => rfl
      | cons bh bt => exact absurd h1 (by simp [listLtB])
  | cons ah at2 ih =>
      intro b h1 h2
      cases b with
      | nil => exact absurd h2 (by simp [listLtB])
      | cons bh bt =>
          simp only [listLtB] at h1 h2
          by_cases hlt : ah < bh
          · simp [hlt] at h1
          · by_cases hgt : bh < ah
            · simp [hlt, hgt] at h2
            · simp only [hlt, hgt, if_false] at h1 h2
              have heq : ah = bh := le_antisymm (le_of_not_lt hgt) (le_of_not_lt hlt)
              rw [heq, ih bt h1 h2]

theorem listLtB_trans :
    ∀ a b c : List Char, listLtB a b = true → listLtB b c = true → listLtB a c = true := by
  intro a
  induction a with
  | nil =>
      intro b c hab hbc
      cases b with
      | nil => exact absurd hab (by simp [listLtB])
      | cons bh bt =>
          cases c with
          | nil => exact absurd hbc (by simp [listLtB])
          | cons ch ct => rfl
  | cons ah at2 ih =>
      intro b c hab hbc
      cases b with
      | nil => exact absurd hab (by simp [listLtB])
      | cons bh bt =>
          cases c with
          | nil => exact absurd hbc (by simp [listLtB])
          | cons ch ct =>
              simp only [listLtB] at hab hbc ⊢
              by_cases h1 : ah < bh
              · by_cases h2 : bh < ch
                · simp [lt_trans h1 h2]
                · by_cases h3 : ch < bh
                  · simp [h2, h3] at hbc
                  · have : bh = ch := le_antisymm (le_of_not_lt h3) (le_of_not_lt h2)
                    subst this
                    simp [h1]
              · by_cases h4 : bh < ah
                · simp [h1, h4] at hab
                · have hae : ah = bh := le_antisymm (le_of_not_lt h4) (le_of_not_lt h1)
                  subst hae
                  simp only [h1, h4, if_false] at hab
                  by_cases h2 : ah < ch
                  · simp [h2]
                  · by_cases h3 : ch < ah
                    · simp [h2, h3] at hbc
                    · simp only [h2, h3, if_false] at hbc ⊢
                      exact ih bt ct hab hbc

/-- Linearity: a strict comparison passes through any middle list. -/
theorem listLtB_linear (a b c : List Char) (h : listLtB a c = true) :
    listLtB a b = true ∨ listLtB b c = true := by
  by_cases h1 : listLtB a b = true
  · exact Or.inl h1
  · by_cases h2 : listLtB b a = true
    · exact Or.inr (listLtB_trans b a c h2 h)
    · have : a = b := listLtB_conn a b (by simpa using h1) (by simpa using h2)
      subst this
      exact Or.inr h

theorem strLtB_irrefl (s : String) : strLtB s s = false :=
  listLtB_irrefl s.data

theorem strLtB_asymm (a b : String) (h : strLtB a b = true) : strLtB b a = false :=
  listLtB_asymm a.data b.data h

theorem strLtB_conn (a b : String) (h1 : strLtB a b = false) (h2 : strLtB b a = false) :
    a = b := by
  have hd := listLtB_conn a.data b.data h1 h2
  cases a; cases b
  exact congrArg String.mk hd

theorem strLtB_trans (a b c : String) (h1 : strLtB a b = true) (h2 : strLtB b c = true) :
    strLtB a c = true :=
  listLtB_trans a.data b.data c.data h1 h2

theorem strLtB_linear (a b c : String) (h : strLtB a c = true) :
    strLtB a b = true ∨ strLtB b c = true :=
  listLtB_linear a.data b.data c.data h

/-- Comparison of the key pairs as Python compares tuples: first components
strict, ties broken by the non-strict comparison of the second. -/
def pairKeyLe (p q : String × String) : Bool :=
  strLtB p.1 q.1 || (p.1 == q.1 && !strLtB q.2 p.2)

/-- The total preorder the sort uses on rows. -/
def rowLe (a b : RowG) : Prop :=
  pairKeyLe (rowSortKey a) (rowSortKey b) = true

instance rowLeDecidable : DecidableRel rowLe := fun a b =>
  inferInstanceAs (Decidable (pairKeyLe (rowSortKey a) (rowSortKey b) = true))

theorem pairKeyLe_total (p q : String × String) :
    pairKeyLe p q = true ∨ pairKeyLe q p = true := by
  unfold pairKeyLe
  by_cases h1 : strLtB p.1 q.1 = true
  · exact Or.inl (by simp [h1])
  · by_cases h2 : strLtB q.1 p.1 = true
    · exact Or.inr (by simp [h2])
    · have heq : p.1 = q.1 :=
        strLtB_conn p.1 q.1 (by simpa using h1) (by simpa using h2)
      by_cases h3 : strLtB q.2 p.2 = true
      · refine Or.inr ?_
        have : strLtB p.2 q.2 = false := strLtB_asymm q.2 p.2 h3
        simp [heq, this]
      · exact Or.inl (by simp [heq, h3])

theorem pairKeyLe_trans (p q r : String × String)
    (h1 : pairKeyLe p q = true) (h2 : pairKeyLe q r = true) : pairKeyLe p r = true := by
  unfold pairKeyLe at h1 h2 ⊢
  simp only [Bool.or_eq_true, Bool.and_eq_true, beq_iff_eq, Bool.not_eq_true'] at h1 h2 ⊢
  rcases h1 with h1 | ⟨h1e, h1k⟩
  · rcases h2 with h2 | ⟨h2e, _⟩
    · exact Or.inl (strLtB_trans _ _ _ h1 h2)
    · exact Or.inl (h2e ▸ h1)
  · rcases h2 with h2 | ⟨h2e, h2k⟩
    · exact Or.inl (h1e ▸ h2)
    · refine Or.inr ⟨h1e.trans h2e, ?_⟩
      by_cases h3 : strLtB r.2 p.2 = true
      · rcases strLtB_linear r.2 q.2 p.2 h3 with h4 | h4
        · rw [h4] at h2k; exact absurd h2k (by simp)
        · rw [h4] at h1k; exact absurd h1k (by simp)
      · simpa using h3

instance : IsTotal RowG rowLe :=
  ⟨fun a b => pairKeyLe_total (rowSortKey a) (rowSortKey b)⟩

instance : IsTrans RowG rowLe :=
  ⟨fun a b c => pairKeyLe_trans (rowSortKey a) (rowSortKey b) (rowSortKey c)⟩

/-- The row list save_grouped_csv writes, after the in-place stable sort of
source line 734.  Insertion with the non-strict key order places an
incoming earlier row before later rows of equal key, so this is the stable
sort Python performs. -/
def save_grouped_csv_rows (results : List GEntry) : List RowG :=
  List.insertionSort rowLe (buildGroupedRows results)

/-! Helpers for stating and proving the claims. -/

/-- Whether an embedded value is a plain string. -/
def isStrB : JVal → Bool
  | .str _ => true
  | _ => false

/-- The key member of a built record, when building succeeded. -/
def recKeyOf : Except String ProcRecord → JVal
  | .ok r => r.key
  | .error _ => .null

/-- A throwaway record used only to project out of a known-successful
build. -/
def dummyProc : ProcRecord where
  key := .null
  summary := .null
  url := ""
  chair := .null
  chair_email := .null
  chair_affiliation := .null
  vice_chair := .null
  vice_chair_email := .null
  vice_chair_affiliation := .null
  emails := []
  status := .null
  charter := .null
  confluence_space := .null
  mailing_list := .null
  activity_level := .null
  meeting_notes := .null
  creation_date := .null
  next_election_month := .null
  next_election_year := .null
  last_election_month := .null
  last_election_year := .null
  is_acting_chair := false
  is_acting_vice_chair := false
  recharter_approval_date := .null

/-- The record inside a successful build, or the fallback. -/
def okOrD (e : Except String ProcRecord) (d : ProcRecord) : ProcRecord :=
  match e with
  | .ok r => r
  | .error _ => d

/-- The fields member resolved by fieldsObjOf is the dict the builder
reads. -/
theorem jGetD_fields_of_fieldsObjOf (okvs fkvs : List (String × JVal))
    (hf : fieldsObjOf okvs = some fkvs) :
    jGetD okvs "fields" (JVal.obj []) = JVal.obj fkvs := by
  unfold fieldsObjOf at hf
  unfold jGetD
  cases hl : lookupJ "fields" okvs with
  | none =>
      rw [hl] at hf
      simp only [Option.some.injEq] at hf
      subst hf
      rfl
  | some v =>
      rw [hl] at hf
      cases v <;> simp_all [Option.getD]

/-- Inversion of a successful build on a shaped raw issue: the projections
of the record the claims talk about. -/
theorem process_issue_ok_parts (okvs fkvs : List (String × JVal)) (r : ProcRecord)
    (hf : fieldsObjOf okvs = some fkvs)
    (hok : process_issue (JVal.obj okvs) = .ok r) :
    r.key = jGetD okvs "key" (JVal.str "") ∧
    r.chair_email = chairEmailOf fkvs ∧
    r.vice_chair_email = viceChairEmailOf fkvs ∧
    r.emails = emailsOf (chairEmailOf fkvs) (viceChairEmailOf fkvs) := by
  have hfe := jGetD_fields_of_fieldsObjOf okvs fkvs hf
  simp only [process_issue, hfe] at hok
  cases h1 : parse_checkbox (jGet fkvs CF_IS_ACTING_CHAIR) with
  | error e => simp only [h1] at hok; exact Except.noConfusion hok
  | ok b1 =>
      cases h2 : parse_checkbox (jGet fkvs CF_IS_ACTING_VICE_CHAIR) with
      | error e => simp only [h1, h2] at hok; exact Except.noConfusion hok
      | ok b2 =>
          simp only [h1, h2, Except.ok.injEq] at hok
          subst hok
          exact ⟨rfl, rfl, rfl, rfl⟩

/-- A successful build fills the emails member from its own chair and
vice-chair email members, whatever the raw issue was. -/
theorem process_issue_emails_eq (raw : JVal) (r : ProcRecord)
    (hok : process_issue raw = .ok r) :
    r.emails = emailsOf r.chair_email r.vice_chair_email := by
  cases raw with
  | obj okvs =>
      cases hfv : jGetD okvs "fields" (JVal.obj []) with
      | obj fkvs =>
          simp only [process_issue, hfv] at hok
          cases h1 : parse_checkbox (jGet fkvs CF_IS_ACTING_CHAIR) with
          | error e => simp only [h1] at hok; exact Except.noConfusion hok
          | ok b1 =>
              cases h2 : parse_checkbox (jGet fkvs CF_IS_ACTING_VICE_CHAIR) with
              | error e => simp only [h1, h2] at hok; exact Except.noConfusion hok
              | ok b2 =>
                  simp only [h1, h2, Except.ok.injEq] at hok
                  subst hok
                  rfl
      | null => simp only [process_issue, hfv] at hok; exact Except.noConfusion hok
      | bool b => simp only [process_issue, hfv] at hok; exact Except.noConfusion hok
      | num n => simp only [process_issue, hfv] at hok; exact Except.noConfusion hok
      | str s => simp only [process_issue, hfv] at hok; exact Except.noConfusion hok
      | arr l => simp only [process_issue, hfv] at hok; exact Except.noConfusion hok
  | null => exact Except.noConfusion hok
  | bool b => exact Except.noConfusion hok
  | num n => exact Except.noConfusion hok
  | str s => exact Except.noConfusion hok
  | arr l => exact Except.noConfusion hok

/-- A truthy value never equals the empty string under Python equality. -/
theorem pyEq_empty_str_of_truthy (x : JVal) (hx : truthy x = true) :
    pyEq x (JVal.str "") = false := by
  cases x with
  | str s =>
      simp only [truthy, bne_iff_ne, ne_eq] at hx
      simp [pyEq, hx]
  | null => rfl
  | bool b => rfl
  | num n => rfl
  | arr l => rfl
  | obj kvs => rfl

/-- The emails list only ever holds truthy values, so the empty string is
never a member. -/
theorem pyMem_empty_emailsOf (c v : JVal) :
    pyMem (JVal.str "") (emailsOf c v) = false := by
  cases hc : truthy c with
  | false =>
      cases hv : truthy v with
      | false => simp [emailsOf, hc, hv, pyMem]
      | true => simp [emailsOf, hc, hv, pyMem, pyEq_empty_str_of_truthy v hv]
  | true =>
      cases hv : truthy v with
      | false => simp [emailsOf, hc, hv, pyMem, pyEq_empty_str_of_truthy c hc]
      | true =>
          by_cases hq : pyEq c v = true
          · simp [emailsOf, hc, hv, pyMem, hq, pyEq_empty_str_of_truthy c hc]
          · simp only [Bool.not_eq_true] at hq
            simp [emailsOf, hc, hv, pyMem, hq, pyEq_empty_str_of_truthy c hc,
              pyEq_empty_str_of_truthy v hv]

/-- C2: for every raw issue, the built record prefers the dedicated chair
(resp. vice-chair) email field exactly when its raw value is a plain
string, regardless of the person-reference field, and otherwise takes the
email embedded in the person reference (None when there is none). -/
theorem claim_C2_email_fallback (okvs fkvs : List (String × JVal)) (r : ProcRecord)
    (hf : fieldsObjOf okvs = some fkvs)
    (hok : process_issue (JVal.obj okvs) = .ok r) :
    (∀ s, jGet fkvs CF_CHAIR_EMAIL = JVal.str s → r.chair_email = JVal.str s) ∧
    (isStrB (jGet fkvs CF_CHAIR_EMAIL) = false →
      r.chair_email = (extract_user_info (jGet fkvs CF_CHAIR)).emailAddress) ∧
    (∀ s, jGet fkvs CF_VICE_CHAIR_EMAIL = JVal.str s → r.vice_chair_email = JVal.str s) ∧
    (isStrB (jGet fkvs CF_VICE_CHAIR_EMAIL) = false →
      r.vice_chair_email = (extract_user_info (jGet fkvs CF_VICE_CHAIR)).emailAddress) := by
  obtain ⟨-, hc, hv, -⟩ := process_issue_ok_parts okvs fkvs r hf hok
  refine ⟨?_, ?_, ?_, ?_⟩
  · intro s hs; rw [hc]; unfold chairEmailOf; rw [hs]
  · intro hns
    rw [hc]; unfold chairEmailOf
    cases hcv : jGet fkvs CF_CHAIR_EMAIL <;> simp_all [isStrB]
  · intro s hs; rw [hv]; unfold viceChairEmailOf; rw [hs]
  · intro hns
    rw [hv]; unfold viceChairEmailOf
    cases hcv : jGet fkvs CF_VICE_CHAIR_EMAIL <;> simp_all [isStrB]

def c2fkvs : List (String × JVal) :=
  [(CF_CHAIR_EMAIL, JVal.str "chair@x"),
   (CF_CHAIR, JVal.obj [("emailAddress", JVal.str "embedded@x")]),
   (CF_VICE_CHAIR, JVal.obj [("emailAddress", JVal.str "vembed@x")])]

def c2okvs : List (String × JVal) :=
  [("key", JVal.str "RVG-1"), ("fields", JVal.obj c2fkvs)]

/-- Witness for C2: a dedicated chair email string wins over an embedded
one, and an absent dedicated vice-chair email falls back to the embedded
one. -/
theorem claim_C2_email_fallback_witness :
    (okOrD (process_issue (JVal.obj c2okvs)) dummyProc).chair_email = JVal.str "chair@x" ∧
    (okOrD (process_issue (JVal.obj c2okvs)) dummyProc).vice_chair_email = JVal.str "vembed@x" := by
  have h := claim_C2_email_fallback c2okvs c2fkvs
    (okOrD (process_issue (JVal.obj c2okvs)) dummyProc) rfl rfl
  refine ⟨h.1 "chair@x" rfl, ?_⟩
  rw [h.2.2.2 rfl]
  rfl

/-- C3: the emails list of a built record is chair email then vice-chair
email, deduplicated under Python equality, in insertion order, skipping
absent (falsy) values: equal present emails collapse to one entry, two
absent emails give the empty list, distinct present emails give the pair in
order, and an absent chair email leaves just the vice-chair email. -/
theorem claim_C3_emails_dedup (raw : JVal) (r : ProcRecord)
    (hok : process_issue raw = .ok r) :
    (truthy r.chair_email = true → truthy r.vice_chair_email = true →
      pyEq r.chair_email r.vice_chair_email = true → r.emails.length = 1) ∧
    (r.chair_email = JVal.null → r.vice_chair_email = JVal.null → r.emails = []) ∧
    (truthy r.chair_email = true → truthy r.vice_chair_email = true →
      pyEq r.chair_email r.vice_chair_email = false →
      r.emails = [r.chair_email, r.vice_chair_email]) ∧
    (truthy r.chair_email = false → truthy r.vice_chair_email = true →
      r.emails = [r.vice_chair_email]) := by
  have he := process_issue_emails_eq raw r hok
  refine ⟨?_, ?_, ?_, ?_⟩
  · intro hc hv heq; rw [he]; simp [emailsOf, hc, hv, pyMem, heq]
  · intro hc hv; rw [he, hc, hv]; simp [emailsOf, truthy]
  · intro hc hv heq; rw [he]; simp [emailsOf, hc, hv, pyMem, heq]
  · intro hc hv; rw [he]; simp [emailsOf, hc, hv, pyMem]

def c3raw : JVal :=
  JVal.obj [("key", JVal.str "RVG-2"),
    ("fields", JVal.obj [(CF_CHAIR_EMAIL, JVal.str "a@x"),
                         (CF_VICE_CHAIR_EMAIL, JVal.str "b@x")])]

/-- Witness for C3: two present distinct emails appear in chair then
vice-chair order. -/
theorem claim_C3_emails_dedup_witness :
    (okOrD (process_issue c3raw) dummyProc).emails = [JVal.str "a@x", JVal.str "b@x"] := by
  have h := claim_C3_emails_dedup c3raw (okOrD (process_issue c3raw) dummyProc) rfl
  exact h.2.2.1 rfl rfl rfl

/-- C5 counterexample: a raw issue with no key at all builds successfully
(no malformed-input error is signalled), with the empty string as key. -/
theorem claim_C5_counterexample :
    exceptOk (process_issue (JVal.obj [])) = true ∧
    recKeyOf (process_issue (JVal.obj [])) = JVal.str "" :=
  ⟨rfl, rfl⟩

/-- C5 (amended): the record builder performs no key check at all.  A raw
issue whose fields member is dict-shaped (or absent) and whose two checkbox
fields parse without error always builds, key or no key; when the key is
missing the built record carries the empty string as key. -/
theorem claim_C5_no_key_check (okvs fkvs : List (String × JVal))
    (hf : fieldsObjOf okvs = some fkvs)
    (h1 : exceptOk (parse_checkbox (jGet fkvs CF_IS_ACTING_CHAIR)) = true)
    (h2 : exceptOk (parse_checkbox (jGet fkvs CF_IS_ACTING_VICE_CHAIR)) = true) :
    exceptOk (process_issue (JVal.obj okvs)) = true ∧
    (lookupJ "key" okvs = none →
      recKeyOf (process_issue (JVal.obj okvs)) = JVal.str "") := by
  have hfe := jGetD_fields_of_fieldsObjOf okvs fkvs hf
  cases hc1 : parse_checkbox (jGet fkvs CF_IS_ACTING_CHAIR) with
  | error e => rw [hc1] at h1; exact absurd h1 (by simp [exceptOk])
  | ok b1 =>
      cases hc2 : parse_checkbox (jGet fkvs CF_IS_ACTING_VICE_CHAIR) with
      | error e => rw [hc2] at h2; exact absurd h2 (by simp [exceptOk])
      | ok b2 =>
          have hfe2 : (lookupJ "fields" okvs).getD (JVal.obj []) = JVal.obj fkvs := hfe
          constructor
          · simp [process_issue, hfe, hc1, hc2, exceptOk]
          · intro hk
            simp [process_issue, jGetD, hfe2, hc1, hc2, recKeyOf, hk]

/-- Witness for the amended C5: a keyless raw issue with an unrelated
member builds, with the empty string as key. -/
theorem claim_C5_no_key_check_witness :
    exceptOk (process_issue (JVal.obj [("foo", JVal.null)])) = true ∧
    recKeyOf (process_issue (JVal.obj [("foo", JVal.null)])) = JVal.str "" := by
  have h := claim_C5_no_key_check [("foo", JVal.null)] [] rfl rfl rfl
  exact ⟨h.1, h.2 rfl⟩

/-- C6: the checkbox normalizer is not total.  A checkbox object whose
value sub-field is a number makes the lower call raise AttributeError
instead of degrading to the documented default False. -/
theorem claim_C6_checkbox_not_total :
    parse_checkbox (JVal.obj [("value", JVal.num 42)]) = .error "AttributeError: lower" :=
  rfl

/-- Modelled from the amended C7 text: null and every other falsy value
(including the empty string) map to absent; a non-empty string maps to
itself; a non-empty object maps to its href sub-field when that is truthy,
else to its url sub-field (absent when missing); everything else maps to
absent. -/
def claimAsUrl (v : JVal) : JVal :=
  if truthy v = false then .null
  else match v with
    | .str s => .str s
    | .obj kvs => if truthy (jGet kvs "href") then jGet kvs "href" else jGet kvs "url"
    | _ => .null

/-- Modelled from the amended C7 text, with value-else-name sub-fields. -/
def claimAsDropdownLabel (v : JVal) : JVal :=
  if truthy v = false then .null
  else match v with
    | .str s => .str s
    | .obj kvs => if truthy (jGet kvs "value") then jGet kvs "value" else jGet kvs "name"
    | _ => .null

/-- C7 counterexample: the empty string is a string, yet both normalizers
map it to absent rather than returning it. -/
theorem claim_C7_counterexample :
    extract_url_field (JVal.str "") = JVal.null ∧
    extract_dropdown_value (JVal.str "") = JVal.null :=
  ⟨rfl, rfl⟩

/-- C7 (amended): both normalizers agree everywhere with the truthiness
refined description: non-empty strings map to themselves, falsy values
(null, the empty string, zero, empty containers) map to absent, non-empty
objects map to their first truthy candidate sub-field with the url or name
fallback, and everything else maps to absent. -/
theorem claim_C7_url_dropdown (v : JVal) :
    extract_url_field v = claimAsUrl v ∧
    extract_dropdown_value v = claimAsDropdownLabel v := by
  constructor <;>
    (cases v <;>
      simp [extract_url_field, extract_dropdown_value, claimAsUrl, claimAsDropdownLabel, pythonOr])

/-- C10: an empty-string dedicated chair (resp. vice-chair) email still
wins over any embedded email, so the built record carries the empty string
in that member, yet the empty string never enters the emails list. -/
theorem claim_C10_empty_email_boundary (okvs fkvs : List (String × JVal)) (r : ProcRecord)
    (hf : fieldsObjOf okvs = some fkvs)
    (hok : process_issue (JVal.obj okvs) = .ok r) :
    (jGet fkvs CF_CHAIR_EMAIL = JVal.str "" →
      r.chair_email = JVal.str "" ∧ pyMem (JVal.str "") r.emails = false) ∧
    (jGet fkvs CF_VICE_CHAIR_EMAIL = JVal.str "" →
      r.vice_chair_email = JVal.str "" ∧ pyMem (JVal.str "") r.emails = false) := by
  obtain ⟨-, hc, hv, hemails⟩ := process_issue_ok_parts okvs fkvs r hf hok
  constructor
  · intro hce
    refine ⟨?_, ?_⟩
    · rw [hc]; unfold chairEmailOf; rw [hce]
    · rw [hemails]; exact pyMem_empty_emailsOf _ _
  · intro hce
    refine ⟨?_, ?_⟩
    · rw [hv]; unfold viceChairEmailOf; rw [hce]
    · rw [hemails]; exact pyMem_empty_emailsOf _ _

def c10fkvs : List (String × JVal) :=
  [(CF_CHAIR_EMAIL, JVal.str ""),
   (CF_CHAIR, JVal.obj [("emailAddress", JVal.str "embedded@x")]),
   (CF_VICE_CHAIR_EMAIL, JVal.str "v@x")]

def c10okvs : List (String × JVal) :=
  [("key", JVal.str "RVG-3"), ("fields", JVal.obj c10fkvs)]

/-- Witness for C10: an empty dedicated chair email yields an empty-string
chair email member excluded from the emails list. -/
theorem claim_C10_empty_email_boundary_witness :
    (okOrD (process_issue (JVal.obj c10okvs)) dummyProc).chair_email = JVal.str "" ∧
    pyMem (JVal.str "") (okOrD (process_issue (JVal.obj c10okvs)) dummyProc).emails = false := by
  have h := claim_C10_empty_email_boundary c10okvs c10fkvs
    (okOrD (process_issue (JVal.obj c10okvs)) dummyProc) rfl rfl
  exact h.1 rfl

/-! Claim C1: link resolution. -/

/-- A link entry shaped the way the tracker emits links: a dict whose type
member resolves to a dict with string (or absent) labels, and whose present
related-issue members hold actual (truthy) issue dicts. -/
def WFLink (link : JVal) : Prop :=
  ∃ lkvs tkvs iw ow, link = JVal.obj lkvs ∧
    jGetD lkvs "type" (JVal.obj []) = JVal.obj tkvs ∧
    jGetD tkvs "inward" (JVal.str "") = JVal.str iw ∧
    jGetD tkvs "outward" (JVal.str "") = JVal.str ow ∧
    (∀ v, lookupJ "inwardIssue" lkvs = some v → (∃ ikvs, v = JVal.obj ikvs) ∧ truthy v = true) ∧
    (∀ v, lookupJ "outwardIssue" lkvs = some v → (∃ ikvs, v = JVal.obj ikvs) ∧ truthy v = true)

/-- A raw issue whose issuelinks member is a list of well-shaped link
entries (absent members default as in the source). -/
def WFIssueLinks (issue_data : JVal) : Prop :=
  ∃ okvs fkvs links, issue_data = JVal.obj okvs ∧
    jGetD okvs "fields" (JVal.obj []) = JVal.obj fkvs ∧
    jGetD fkvs "issuelinks" (JVal.arr []) = JVal.arr links ∧
    ∀ l ∈ links, WFLink l

/-- When every present related-issue member is truthy, the claim notion of
carrying a related issue coincides with the key-presence test of the
source. -/
theorem claimCarries_eq_hasKey (lkvs : List (String × JVal)) (side : String)
    (h : ∀ v, lookupJ side lkvs = some v → (∃ ikvs, v = JVal.obj ikvs) ∧ truthy v = true) :
    claimCarries lkvs side = hasKey side lkvs := by
  unfold claimCarries hasKey jGet
  cases hv : lookupJ side lkvs with
  | none => simp [hv]
  | some v => simp [hv, (h v hv).2]

/-- On well-shaped links the source scan and the claim scan agree. -/
theorem linkScan_eq_claimScan (inw outw : String) (lkvs : List (String × JVal))
    (hin : ∀ v, lookupJ "inwardIssue" lkvs = some v → (∃ ikvs, v = JVal.obj ikvs) ∧ truthy v = true)
    (hout : ∀ v, lookupJ "outwardIssue" lkvs = some v → (∃ ikvs, v = JVal.obj ikvs) ∧ truthy v = true) :
    ∀ names : List String, linkScan inw outw lkvs names = claimScan inw outw lkvs names := by
  intro names
  induction names with
  | nil => rfl
  | cons n rest ih =>
      simp only [linkScan, claimScan, claimCarries_eq_hasKey lkvs "inwardIssue" hin,
        claimCarries_eq_hasKey lkvs "outwardIssue" hout, ih]

/-- The value a successful claim scan selects is a present related-issue
member. -/
theorem claimScan_picks_member (inw outw : String) (lkvs : List (String × JVal)) :
    ∀ (names : List String) (v : JVal) (dir : String),
      claimScan inw outw lkvs names = some (v, dir) →
      (v = jGet lkvs "inwardIssue" ∧ claimCarries lkvs "inwardIssue" = true) ∨
      (v = jGet lkvs "outwardIssue" ∧ claimCarries lkvs "outwardIssue" = true) := by
  intro names
  induction names with
  | nil => intro v dir h; exact Option.noConfusion h
  | cons n rest ih =>
      intro v dir h
      simp only [claimScan] at h
      by_cases h1 : (pyIn (pyLowerStr n) inw && claimCarries lkvs "inwardIssue") = true
      · rw [if_pos h1] at h
        simp only [Option.some.injEq, Prod.mk.injEq] at h
        simp only [Bool.and_eq_true] at h1
        exact Or.inl ⟨h.1.symm, h1.2⟩
      · rw [if_neg h1] at h
        by_cases h2 : (pyIn (pyLowerStr n) outw && claimCarries lkvs "outwardIssue") = true
        · rw [if_pos h2] at h
          simp only [Option.some.injEq, Prod.mk.injEq] at h
          simp only [Bool.and_eq_true] at h2
          exact Or.inr ⟨h.1.symm, h2.2⟩
        · rw [if_neg h2] at h
          exact ih v dir h

/-- On a well-shaped link the source loop body emits exactly the edge the
claim describes. -/
theorem processLink_eq_claim (names : List String) (link : JVal) (h : WFLink link) :
    processLink names link = .ok (claimEdgeOfLink names link) := by
  obtain ⟨lkvs, tkvs, iw, ow, hl, ht, hiw, how, hin, hout⟩ := h
  subst hl
  simp only [processLink, claimEdgeOfLink, ht, hiw, how,
    linkScan_eq_claimScan (pyLowerStr iw) (pyLowerStr ow) lkvs hin hout]
  cases hs : claimScan (pyLowerStr iw) (pyLowerStr ow) lkvs names with
  | none => rfl
  | some p =>
      obtain ⟨v, dir⟩ := p
      have hpick := claimScan_picks_member (pyLowerStr iw) (pyLowerStr ow) lkvs names v dir hs
      have hv : (∃ ikvs, v = JVal.obj ikvs) ∧ truthy v = true := by
        rcases hpick with ⟨hveq, hcar⟩ | ⟨hveq, hcar⟩
        · unfold claimCarries hasKey at hcar
          cases hlk : lookupJ "inwardIssue" lkvs with
          | none => rw [hlk] at hcar; simp at hcar
          | some w =>
              have := hin w hlk
              have : v = w := by rw [hveq]; unfold jGet; rw [hlk]; rfl
              subst this
              exact hin v hlk
        · unfold claimCarries hasKey at hcar
          cases hlk : lookupJ "outwardIssue" lkvs with
          | none => rw [hlk] at hcar; simp at hcar
          | some w =>
              have : v = w := by rw [hveq]; unfold jGet; rw [hlk]; rfl
              subst this
              exact hout v hlk
      obtain ⟨⟨ikvs, hvo⟩, htr⟩ := hv
      subst hvo
      simp [htr, claimKeyOf]

/-- The link loop equals the claim resolution, link by link. -/
theorem linksLoop_eq_claim (names : List String) (links : List JVal)
    (h : ∀ l ∈ links, WFLink l) :
    linksLoop names links = .ok (links.filterMap (claimEdgeOfLink names)) := by
  induction links with
  | nil => rfl
  | cons l rest ih =>
      have hl := h l (List.mem_cons_self l rest)
      have hrest := ih (fun x hx => h x (List.mem_cons_of_mem _ hx))
      simp only [linksLoop, processLink_eq_claim names l hl, hrest, List.filterMap_cons]
      cases claimEdgeOfLink names l <;> simp

/-- C1 (amended): on raw issues whose present related-issue members hold
actual (truthy) issue objects, the link resolver emits exactly the edges of
the claim scan: at most one edge per link entry, in link-list order, each
chosen by the first configured relation name whose case-folded form is a
substring of the inward label while an inward-side issue is carried
(direction inward), else of the outward label while an outward-side issue
is carried (direction outward); entries matching no configured name
contribute nothing. -/
theorem claim_C1_link_resolution (raw : JVal) (names : List String)
    (hwf : WFIssueLinks raw) :
    get_linked_issues raw names = .ok (claimResolveLinks raw names) := by
  obtain ⟨okvs, fkvs, links, hraw, hfe, hle, hl⟩ := hwf
  subst hraw
  simp only [get_linked_issues, claimResolveLinks, hfe, hle, pyIter]
  exact linksLoop_eq_claim names links hl

/-- C1 counterexample: a link carrying a configured name inside both labels
with a null inwardIssue member present breaks the scan at the inward side
without emitting, while the claim scan (an entry with a null member does
not carry an inward issue, or emits when it does) produces an edge. -/
def c1link : JVal :=
  JVal.obj [("type", JVal.obj [("inward", JVal.str "is governed by"),
                               ("outward", JVal.str "x is governed by way of")]),
            ("inwardIssue", JVal.null),
            ("outwardIssue", JVal.obj [("key", JVal.str "RVG-2")])]

def c1raw : JVal :=
  JVal.obj [("fields", JVal.obj [("issuelinks", JVal.arr [c1link])])]

/-- C1 counterexample theorem: the resolver emits no edge on this entry,
though the claim rule emits exactly one. -/
theorem claim_C1_counterexample :
    get_linked_issues c1raw ["is governed by"] = .ok [] ∧
    claimResolveLinks c1raw ["is governed by"] =
      [{ key := JVal.str "RVG-2", link_type := JVal.null, direction := "outward" }] :=
  ⟨rfl, rfl⟩

def c1wlink : JVal :=
  JVal.obj [("type", JVal.obj [("name", JVal.str "Gov"),
                               ("inward", JVal.str "is governed by"),
                               ("outward", JVal.str "it Is Direct-Lined By here")]),
            ("inwardIssue", JVal.obj [("key", JVal.str "RVG-8")]),
            ("outwardIssue", JVal.obj [("key", JVal.str "RVG-9")])]

def c1wraw : JVal :=
  JVal.obj [("fields", JVal.obj [("issuelinks", JVal.arr [c1wlink])])]

/-- Witness for the amended C1: with the configured list, a link whose
outward label contains the first configured name and whose inward label
contains the second yields exactly one edge, picked by the first name in
configuration order (outward side), even though the second name also
matches the inward side. -/
theorem claim_C1_link_resolution_witness :
    get_linked_issues c1wraw LINK_TYPES_OF_INTEREST =
      .ok [{ key := JVal.str "RVG-9", link_type := JVal.str "Gov", direction := "outward" }] := by
  have hwf : WFIssueLinks c1wraw := by
    refine ⟨_, _, [c1wlink], rfl, rfl, rfl, ?_⟩
    intro l hlmem
    have hl : l = c1wlink := List.mem_singleton.mp hlmem
    subst hl
    refine ⟨_, _, "is governed by", "it Is Direct-Lined By here", rfl, rfl, rfl, rfl, ?_, ?_⟩
    · intro v hv
      simp [c1wlink, lookupJ] at hv
      subst hv
      exact ⟨⟨_, rfl⟩, rfl⟩
    · intro v hv
      simp [c1wlink, lookupJ] at hv
      subst hv
      exact ⟨⟨_, rfl⟩, rfl⟩
  rw [claim_C1_link_resolution c1wraw LINK_TYPES_OF_INTEREST hwf]
  rfl

/-! Claim C4: grouped CSV row ordering. -/

theorem strOr_empty (d : String) : strOr "" d = d := rfl

theorem strOr_of_ne (s d : String) (h : s ≠ "") : strOr s d = s := by
  unfold strOr
  simp [h]

/-- C4 (amended): the grouped exporter emits a permutation of its built
rows, sorted by the key pair (linked-issue summary with empty replaced by
the sentinel zzz, then primary key) under code-point string comparison.
Consequently an empty-summary row never precedes a row whose non-empty
summary compares below the sentinel zzz, and rows with non-empty summaries
are ordered by summary then primary key; a non-empty summary at or above
zzz (such as zzzz) can land after empty-summary rows. -/
theorem claim_C4_grouped_sort (results : List GEntry) :
    (save_grouped_csv_rows results).Perm (buildGroupedRows results) ∧
    List.Sorted rowLe (save_grouped_csv_rows results) ∧
    (∀ i j : Fin (save_grouped_csv_rows results).length,
      ((save_grouped_csv_rows results).get i).linkedIssueSummary = "" →
      ((save_grouped_csv_rows results).get j).linkedIssueSummary ≠ "" →
      strLtB ((save_grouped_csv_rows results).get j).linkedIssueSummary "zzz" = true →
      (j : Nat) < (i : Nat)) ∧
    (∀ i j : Fin (save_grouped_csv_rows results).length,
      (i : Nat) < (j : Nat) →
      ((save_grouped_csv_rows results).get i).linkedIssueSummary ≠ "" →
      ((save_grouped_csv_rows results).get j).linkedIssueSummary ≠ "" →
      (strLtB ((save_grouped_csv_rows results).get i).linkedIssueSummary
          ((save_grouped_csv_rows results).get j).linkedIssueSummary = true ∨
        (((save_grouped_csv_rows results).get i).linkedIssueSummary =
            ((save_grouped_csv_rows results).get j).linkedIssueSummary ∧
          strLtB ((save_grouped_csv_rows results).get j).issueKey
            ((save_grouped_csv_rows results).get i).issueKey = false))) := by
  have hperm : (save_grouped_csv_rows results).Perm (buildGroupedRows results) :=
    List.perm_insertionSort rowLe _
  have hsorted : List.Sorted rowLe (save_grouped_csv_rows results) :=
    List.sorted_insertionSort rowLe _
  have hp := List.pairwise_iff_get.mp hsorted
  refine ⟨hperm, hsorted, ?_, ?_⟩
  · intro i j hi hj hjz
    rcases Nat.lt_trichotomy (i : Nat) (j : Nat) with hlt | heq | hgt
    · exfalso
      have hr := hp i j hlt
      unfold rowLe at hr
      simp only [pairKeyLe, rowSortKey] at hr
      rw [hi, strOr_empty, strOr_of_ne _ _ hj] at hr
      have hasy := strLtB_asymm _ _ hjz
      have hne : ("zzz" == ((save_grouped_csv_rows results).get j).linkedIssueSummary) = false := by
        by_cases he : "zzz" = ((save_grouped_csv_rows results).get j).linkedIssueSummary
        · exfalso
          rw [← he] at hjz
          rw [strLtB_irrefl] at hjz
          exact Bool.noConfusion hjz
        · exact beq_eq_false_iff_ne.mpr he
      rw [hasy, hne] at hr
      simp at hr
    · exfalso
      exact hj (Fin.ext heq ▸ hi)
    · exact hgt
  · intro i j hij hi hj
    have hr := hp i j hij
    unfold rowLe at hr
    simp only [pairKeyLe, rowSortKey] at hr
    rw [strOr_of_ne _ _ hi, strOr_of_ne _ _ hj] at hr
    simp only [Bool.or_eq_true, Bool.and_eq_true, beq_iff_eq, Bool.not_eq_true'] at hr
    exact hr

def mkGIssue (k s : String) : GIssue where
  key := k
  summary := s
  status := none
  creation_date := none
  recharter_approval_date := none
  charter := none
  confluence_space := none
  mailing_list := none
  activity_level := none
  meeting_notes := none
  next_election_month := none
  next_election_year := none
  last_election_month := none
  last_election_year := none
  chair := none
  chair_email := none
  chair_affiliation := none
  is_acting_chair := false
  vice_chair := none
  vice_chair_email := none
  vice_chair_affiliation := none
  is_acting_vice_chair := false

def mkGLinked (s : String) : GLinked where
  summary := s
  chair := none
  chair_email := none
  chair_affiliation := none
  vice_chair := none
  vice_chair_email := none
  vice_chair_affiliation := none
  mailing_list := none

def c4eA : GEntry := { issue := mkGIssue "RVG-1" "A", linked_issues := [] }

def c4eZ : GEntry := { issue := mkGIssue "RVG-2" "Z", linked_issues := [mkGLinked "zzzz"] }

/-- C4 counterexample: a linked-issue summary of zzzz (non-empty) sorts
after the empty-summary row of an unlinked issue, because the sentinel the
sort key substitutes for an empty summary is the string zzz, not a value
above every real summary. -/
theorem claim_C4_counterexample :
    (save_grouped_csv_rows [c4eA, c4eZ]).map (fun r => (r.linkedIssueSummary, r.issueKey)) =
      [("", "RVG-1"), ("zzzz", "RVG-2")] := by
  decide

def c4wA : GEntry := { issue := mkGIssue "RVG-1" "A", linked_issues := [] }

def c4wB : GEntry := { issue := mkGIssue "RVG-2" "B", linked_issues := [mkGLinked "Zeta"] }

def c4wC : GEntry := { issue := mkGIssue "RVG-3" "C", linked_issues := [mkGLinked "Alpha"] }

/-- Witness for the amended C4, on the spec example: with issues A (no
links), B (linked summary Zeta), C (linked summary Alpha), the output is a
sorted permutation of the rows and the empty-summary row of A comes after
the Alpha row of C. -/
theorem claim_C4_grouped_sort_witness :
    (save_grouped_csv_rows [c4wA, c4wB, c4wC]).Perm (buildGroupedRows [c4wA, c4wB, c4wC]) ∧
    List.Sorted rowLe (save_grouped_csv_rows [c4wA, c4wB, c4wC]) ∧
    (0 : Nat) < 2 := by
  have h := claim_C4_grouped_sort [c4wA, c4wB, c4wC]
  refine ⟨h.1, h.2.1, ?_⟩
  exact h.2.2.1 ⟨2, by decide⟩ ⟨0, by decide⟩ (by decide) (by decide) (by decide)

/-! Claim C8: pagination termination. -/

/-- A server page sequence in which every page except the last carries a
(truthy) continuation token and the last carries none. -/
def tokenChain : List (List JVal × Option String) → Bool
  | [] => false
  | [(_, none)] => true
  | (_, some t) :: rest => (t != "") && tokenChain rest
  | (_, none) :: _ :: _ => false

/-- The 200 response for one page: its issues and, when present, its
continuation token. -/
def mkPage (p : List JVal × Option String) : HttpResp where
  status := 200
  body := JVal.obj ([("issues", JVal.arr p.1)] ++
    (match p.2 with
     | some t => [("nextPageToken", JVal.str t)]
     | none => []))

theorem searchLoop_pages (ps : List (List JVal × Option String)) (h : tokenChain ps = true) :
    ∀ (fuel : Nat) (acc : List JVal), ps.length ≤ fuel →
      searchLoop fuel (ps.map mkPage) acc =
        .ok (acc ++ (ps.map Prod.fst).flatten, ps.length) := by
  induction ps with
  | nil => exact absurd h (by simp [tokenChain])
  | cons p rest ih =>
      intro fuel acc hfuel
      obtain ⟨iss, tok⟩ := p
      match fuel with
      | 0 => exact absurd hfuel (by simp)
      | fuel0 + 1 =>
          cases tok with
          | none =>
              cases rest with
              | nil => simp [searchLoop, httpAttempts, mkPage, pyIter, jGetD, jGet, lookupJ, truthy]
              | cons q qs => exact absurd h (by simp [tokenChain])
          | some t =>
              have hchain : (t != "") = true ∧ tokenChain rest = true := by
                cases rest with
                | nil => simp [tokenChain] at h
                | cons q qs =>
                    simpa [tokenChain, Bool.and_eq_true] using h
              have hrec := ih hchain.2 fuel0 (acc ++ iss) (by simpa using Nat.le_of_succ_le_succ hfuel)
              have htr : truthy (JVal.str t) = true := by simp [truthy, hchain.1]
              simp [searchLoop, httpAttempts, mkPage, pyIter, jGetD, jGet, lookupJ, htr, hrec,
                List.append_assoc, Nat.add_comm]

/-- C8: over a finite page sequence in which every page but the last
carries a continuation token, the search issues exactly one request per
page and returns the concatenation of the pages issue lists in order; an
empty single page without token yields the empty result after one
request. -/
theorem claim_C8_pagination :
    (∀ ps : List (List JVal × Option String), tokenChain ps = true →
      search_issues (ps.map mkPage) = .ok ((ps.map Prod.fst).flatten, ps.length)) ∧
    search_issues [mkPage ([], none)] = .ok ([], 1) := by
  constructor
  · intro ps h
    unfold search_issues
    have := searchLoop_pages ps h (ps.map mkPage).length [] (by simp)
    simpa using this
  · rfl

/-- Witness for C8: two pages, the first carrying a token, yield both
issues in order after exactly two requests. -/
theorem claim_C8_pagination_witness :
    search_issues [mkPage ([JVal.str "i1"], some "t"), mkPage ([JVal.str "i2"], none)] =
      .ok ([JVal.str "i1", JVal.str "i2"], 2) := by
  have h := claim_C8_pagination.1 [([JVal.str "i1"], some "t"), ([JVal.str "i2"], none)] rfl
  simpa using h

/-! Claim C9: not-found primary keys are skipped. -/

/-- The body the per-key fetch of the pipeline retains for one key. -/
def primaryBody (server : String → List HttpResp) (k : String) : Option JVal :=
  (get_issue_details server (.str k)).1

/-- The warning lines the per-key fetch prints for one key. -/
def primaryWarn (server : String → List HttpResp) (k : String) : List String :=
  (get_issue_details server (.str k)).2.2

/-- A server that answers every issue URL on its first response, either
with a definitive not-found or with a valid issue: one whose record builds
and whose links resolve. -/
def ServerOk (server : String → List HttpResp) (k : JVal) : Prop :=
  (∃ b rest, server (urlForIssue k) = { status := 404, body := b } :: rest) ∨
  (∃ b rest, server (urlForIssue k) = { status := 200, body := b } :: rest ∧
    exceptOk (process_issue b) = true ∧
    exceptOk (get_linked_issues b LINK_TYPES_OF_INTEREST) = true)

/-- The entry one fetched body contributes, when its processing succeeds. -/
def entryOfD (server : String → List HttpResp) (b : JVal) : IssueWithLinks :=
  match processEntry server b with
  | .ok (e, _) => e
  | .error _ => { issue := dummyProc, linked_issues := [] }

/-- The warnings the processing phase prints over the fetched bodies. -/
def linkedWarnsOf (server : String → List HttpResp) (bodies : List JVal) : List String :=
  match processLoop server bodies with
  | .ok (_, ws) => ws
  | .error _ => []

/-- Whether the first response for a key is a definitive not-found. -/
def head404 (server : String → List HttpResp) (k : JVal) : Bool :=
  match server (urlForIssue k) with
  | r :: _ => r.status == 404
  | [] => false

/-- A first response of status 200 is consumed in one request and yields
its body with no warning. -/
theorem get_issue_details_head200 (server : String → List HttpResp) (k : JVal)
    (b : JVal) (rest : List HttpResp)
    (hsrv : server (urlForIssue k) = { status := 200, body := b } :: rest) :
    get_issue_details server k = (some b, 1, []) := by
  unfold get_issue_details
  rw [hsrv]
  rfl

/-- A first response of status 404 is consumed in one request, yields
nothing, is not retried, and prints the not-found warning. -/
theorem get_issue_details_head404 (server : String → List HttpResp) (k : JVal)
    (b : JVal) (rest : List HttpResp)
    (hsrv : server (urlForIssue k) = { status := 404, body := b } :: rest) :
    get_issue_details server k = (none, 1, ["Warning: Issue " ++ pyStr k ++ " not found"]) := by
  unfold get_issue_details
  rw [hsrv]
  rfl

/-- Under a ServerOk server the linked-issue loop never fails: every edge
either fetches a processable issue or is skipped. -/
theorem linkedLoop_isOk (server : String → List HttpResp)
    (HS : ∀ k, ServerOk server k) :
    ∀ refs : List LinkRef, exceptOk (linkedLoop server refs) = true := by
  intro refs
  induction refs with
  | nil => rfl
  | cons ref rest ih =>
      rcases HS ref.key with ⟨b, rs, hsrv⟩ | ⟨b, rs, hsrv, hpb, hlb⟩
      · have hd := get_issue_details_head404 server ref.key b rs hsrv
        cases hll : linkedLoop server rest with
        | error e => rw [hll] at ih; exact absurd ih (by simp [exceptOk])
        | ok v =>
            obtain ⟨t1, t2⟩ := v
            simp [linkedLoop, hd, hll, exceptOk]
      · have hd := get_issue_details_head200 server ref.key b rs hsrv
        cases hpe : process_issue b with
        | error e => rw [hpe] at hpb; exact absurd hpb (by simp [exceptOk])
        | ok li =>
            cases hll : linkedLoop server rest with
            | error e => rw [hll] at ih; exact absurd ih (by simp [exceptOk])
            | ok v =>
                obtain ⟨t1, t2⟩ := v
                simp [linkedLoop, hd, hpe, hll, exceptOk]

/-- Under a ServerOk server the processing of a fetched valid body
succeeds. -/
theorem processEntry_isOk (server : String → List HttpResp)
    (HS : ∀ k, ServerOk server k) (b : JVal)
    (hpb : exceptOk (process_issue b) = true)
    (hlb : exceptOk (get_linked_issues b LINK_TYPES_OF_INTEREST) = true) :
    exceptOk (processEntry server b) = true := by
  unfold processEntry
  cases hpe : process_issue b with
  | error e => rw [hpe] at hpb; exact absurd hpb (by simp [exceptOk])
  | ok main =>
      cases hgl : get_linked_issues b LINK_TYPES_OF_INTEREST with
      | error e => rw [hgl] at hlb; exact absurd hlb (by simp [exceptOk])
      | ok refs =>
          have hok := linkedLoop_isOk server HS refs
          cases hll : linkedLoop server refs with
          | error e => rw [hll] at hok; exact absurd hok (by simp [exceptOk])
          | ok v =>
              obtain ⟨l1, l2⟩ := v
              simp [hll, exceptOk]

/-- The processing loop maps each fetched body to its entry, in order, when
every body processes. -/
theorem processLoop_ok (server : String → List HttpResp) :
    ∀ bodies : List JVal, (∀ b ∈ bodies, exceptOk (processEntry server b) = true) →
      ∃ ws, processLoop server bodies = .ok (bodies.map (entryOfD server), ws) := by
  intro bodies
  induction bodies with
  | nil => exact fun _ => ⟨[], rfl⟩
  | cons b bs ih =>
      intro h
      obtain ⟨ws, hws⟩ := ih (fun x hx => h x (List.mem_cons_of_mem _ hx))
      have hb := h b (List.mem_cons_self b bs)
      cases hpe : processEntry server b with
      | error e => rw [hpe] at hb; exact absurd hb (by simp [exceptOk])
      | ok v =>
          obtain ⟨e, w1⟩ := v
          refine ⟨w1 ++ ws, ?_⟩
          have he : entryOfD server b = e := by unfold entryOfD; rw [hpe]
          simp only [processLoop, hpe, hws, List.map_cons, he]

/-- The explicit-key fetch phase keeps, in key order, exactly the bodies
the per-key fetch yields, and prints the per-key warnings in order. -/
theorem fetchKeysLoop_eq (server : String → List HttpResp) :
    ∀ ks : List String,
      fetchKeysLoop server ks =
        (ks.filterMap (primaryBody server), (ks.map (primaryWarn server)).flatten) := by
  intro ks
  induction ks with
  | nil => rfl
  | cons k rest ih =>
      simp only [fetchKeysLoop, ih, List.filterMap_cons, List.map_cons, List.flatten_cons]
      unfold primaryBody primaryWarn
      cases hd : (get_issue_details server (.str k)).1 <;> simp [hd]

/-- A body retained by the fetch phase comes from a 200 response of a
ServerOk server, so it processes and its links resolve. -/
theorem mem_primary_bodies (server : String → List HttpResp)
    (HS : ∀ k, ServerOk server k) (ks : List String) (b : JVal)
    (hb : b ∈ ks.filterMap (primaryBody server)) :
    exceptOk (process_issue b) = true ∧
    exceptOk (get_linked_issues b LINK_TYPES_OF_INTEREST) = true := by
  obtain ⟨k, hk, hpk⟩ := List.mem_filterMap.mp hb
  rcases HS (.str k) with ⟨bb, rs, hsrv⟩ | ⟨bb, rs, hsrv, hpb, hlb⟩
  · have hd := get_issue_details_head404 server (.str k) bb rs hsrv
    unfold primaryBody at hpk
    rw [hd] at hpk
    exact Option.noConfusion hpk
  · have hd := get_issue_details_head200 server (.str k) bb rs hsrv
    unfold primaryBody at hpk
    rw [hd] at hpk
    simp only [Option.some.injEq] at hpk
    subst hpk
    exact ⟨hpb, hlb⟩

/-- C9: over a server answering every key with a definitive not-found or a
valid issue, the pipeline on a non-empty explicit key list yields exactly
one result entry per key whose fetch retains a body (the valid keys), in
key-list order; the primary-phase warnings are the per-key warnings in key
order, followed by the processing-phase warnings; and a key whose first
response is a 404 yields no body, is requested exactly once (no retry) and
prints exactly the not-found warning. -/
theorem claim_C9_notfound_skipped (server : String → List HttpResp)
    (searchResponses : List HttpResp) (jql : Option String) (ks : List String)
    (HS : ∀ k : JVal, ServerOk server k) (hne : ks ≠ []) :
    fetch_and_process_issues server searchResponses jql (some ks) =
      .ok ((ks.filterMap (primaryBody server)).map (entryOfD server),
           (ks.map (primaryWarn server)).flatten ++
             linkedWarnsOf server (ks.filterMap (primaryBody server))) ∧
    (∀ k : JVal, head404 server k = true →
      (get_issue_details server k).1 = none ∧
      (get_issue_details server k).2.1 = 1 ∧
      (get_issue_details server k).2.2 = ["Warning: Issue " ++ pyStr k ++ " not found"]) := by
  constructor
  · cases ks with
    | nil => exact absurd rfl hne
    | cons k0 ks0 =>
        obtain ⟨ws, hpl⟩ := processLoop_ok server
          ((k0 :: ks0).filterMap (primaryBody server))
          (fun b hb =>
            processEntry_isOk server HS b
              (mem_primary_bodies server HS (k0 :: ks0) b hb).1
              (mem_primary_bodies server HS (k0 :: ks0) b hb).2)
        have hlw : linkedWarnsOf server ((k0 :: ks0).filterMap (primaryBody server)) = ws := by
          unfold linkedWarnsOf
          rw [hpl]
        simp only [fetch_and_process_issues, fetchKeysLoop_eq server (k0 :: ks0), hpl, hlw]
  · intro k h404
    unfold head404 at h404
    cases hsrv : server (urlForIssue k) with
    | nil => rw [hsrv] at h404; exact Bool.noConfusion h404
    | cons r rest =>
        rw [hsrv] at h404
        obtain ⟨st, body⟩ := r
        have hst : st = 404 := by simpa using h404
        subst hst
        have hd := get_issue_details_head404 server k body rest hsrv
        rw [hd]
        exact ⟨rfl, rfl, rfl⟩

def c9body : JVal := JVal.obj [("key", JVal.str "RVG-1")]

def c9server : String → List HttpResp := fun url =>
  if url = urlForIssue (JVal.str "RVG-1") then [{ status := 200, body := c9body }]
  else [{ status := 404, body := JVal.null }]

/-- Witness for C9: a key list with one valid and one unknown key yields
only the valid entry plus the not-found warning for the other key. -/
theorem claim_C9_notfound_skipped_witness :
    fetch_and_process_issues c9server [] none (some ["RVG-1", "RVG-9"]) =
      .ok ((["RVG-1", "RVG-9"].filterMap (primaryBody c9server)).map (entryOfD c9server),
           (["RVG-1", "RVG-9"].map (primaryWarn c9server)).flatten ++
             linkedWarnsOf c9server (["RVG-1", "RVG-9"].filterMap (primaryBody c9server))) := by
  have hs : ∀ k : JVal, ServerOk c9server k := by
    intro k
    by_cases hu : urlForIssue k = urlForIssue (JVal.str "RVG-1")
    · right
      refine ⟨c9body, [], ?_, rfl, rfl⟩
      simp [c9server, hu]
    · left
      refine ⟨JVal.null, [], ?_⟩
      simp [c9server, hu]
  exact (claim_C9_notfound_skipped c9server [] none ["RVG-1", "RVG-9"] hs (by simp)).1

end RVG
